import Mathlib

/-
  Verification of the claude-usage-core credential-lifecycle subsystem.

  Shallow embedding of the TypeScript sources:
    - src/tokens/index.ts      (validateToken, refreshToken)
    - src/storage/index.ts     (AccountStore)
    - src/storage/crypto.ts    (encrypt / decrypt envelope)
    - src/client.ts            (ClaudeUsageClient usage orchestration)
    - src/auth/index.ts        (authorize: listener / timer state machine)

  External runtime collaborators (JSON.parse, Date, fetch, node:crypto,
  the store file) are modelled as explicit inputs: parse functions, date
  oracles, and lists of outcomes consumed in call order.  JavaScript
  falsiness of optional strings (undefined / null / "") is modelled by
  strTruthy, and JavaScript Date/NaN semantics by JsDate / JsNum.
-/

namespace ClaudeUsage

/-- A JavaScript `Date` value: either a valid instant (milliseconds since
epoch) or the Invalid Date (NaN time value). -/
inductive JsDate where
  | invalid
  | time (t : Int)
deriving DecidableEq, Repr

/-- A JavaScript number-or-null as stored in `TokenValidation.minutesUntilExpiry`:
`null`, `NaN`, or an integer. -/
inductive JsNum where
  | null
  | nan
  | int (n : Int)
deriving DecidableEq, Repr

/-- JavaScript truthiness of an optional string: `undefined`, `null` and the
empty string are falsy; every other string is truthy. -/
def strTruthy : Option String → Bool
  | none => false
  | some s => s != ""

/-- JavaScript nullish coalescing `x ?? y` on optional strings. -/
def jsNullish (x y : Option String) : Option String :=
  match x with
  | none => y
  | some v => some v

/-- The `claudeAiOauth` object of a parsed credentials blob
(src/types.ts `ClaudeCredentials`). -/
structure ClaudeAiOauth where
  accessToken : Option String := none
  refreshToken : Option String := none
  expiresAt : Option String := none
deriving DecidableEq, Repr

/-- A parsed credentials blob: either `claudeAiOauth` credentials or an
admin key (src/types.ts `ClaudeCredentials` / `AdminCredentials`). -/
structure ClaudeCredentials where
  claudeAiOauth : Option ClaudeAiOauth := none
  adminApiKey : Option String := none
deriving DecidableEq, Repr

/-- Outcome of `JSON.parse` on a credentials blob: the runtime either throws
(malformed JSON) or yields a structured value. -/
inductive ParseResult where
  | thrown (msg : String)
  | parsed (creds : ClaudeCredentials)
deriving DecidableEq, Repr

/-- Result record of `validateToken` (src/tokens/index.ts `TokenValidation`). -/
structure TokenValidation where
  isValid : Bool
  isExpired : Bool
  expiresAt : Option JsDate
  minutesUntilExpiry : JsNum
deriving DecidableEq, Repr

/-- JavaScript comparison `expiresAt <= now` on a Date: comparisons against
an Invalid Date (NaN) are false. -/
def jsDateLe (d : JsDate) (now : Int) : Bool :=
  match d with
  | .invalid => false
  | .time t => t ≤ now

/-- `Math.floor((expiresAt.getTime() - now.getTime()) / 60_000)`: floor
division, NaN-propagating for an Invalid Date. -/
def minutesUntil (d : JsDate) (now : Int) : JsNum :=
  match d with
  | .invalid => .nan
  | .time t => .int (Int.fdiv (t - now) 60000)

/-- The all-null/false `TokenValidation` returned on malformed or
expiry-free blobs. -/
def nullValidation : TokenValidation :=
  { isValid := false, isExpired := false, expiresAt := none, minutesUntilExpiry := .null }

/-- Embedding of `validateToken` (src/tokens/index.ts lines 18-31).
`parse` models `JSON.parse`, `dateOf` models `new Date(string)`, `now` is the
current epoch-milliseconds. -/
def validateToken (parse : String → ParseResult) (dateOf : String → JsDate) (now : Int)
    (credentialsJson : String) : TokenValidation :=
  match parse credentialsJson with
  | .thrown _ => nullValidation
  | .parsed creds =>
    match creds.claudeAiOauth.bind (fun o => o.expiresAt) with
    | none => nullValidation
    | some s =>
      if s = "" then nullValidation
      else
        let expiresAt := dateOf s
        let isExpired := jsDateLe expiresAt now
        { isValid := !isExpired, isExpired := isExpired,
          expiresAt := some expiresAt, minutesUntilExpiry := minutesUntil expiresAt now }

/-! ### AccountStore (src/storage/index.ts) -/

/-- A stored account entry (src/types.ts `SavedAccount`). -/
structure SavedAccount where
  name : String
  email : Option String := none
  accountType : Option String := none
  credentials : String
  savedAt : String
deriving DecidableEq, Repr, Inhabited

/-- The whole persisted store document (src/types.ts `AccountsData`). -/
structure AccountsData where
  accounts : List SavedAccount
  activeAccountName : Option String
deriving DecidableEq, Repr

/-- Modelled from the spec: the current revision of `AccountStore.saveAccount`
(with optional `email` and `accountType` parameters) is exercised by
tests/storage/index.test.ts and called by src/client.ts, but its source
revision is absent from the pack; only an older two-argument revision of
src/storage/index.ts is present.  Per spec section 4.3 the call upserts by
name: an existing entry is replaced in place, its blob and `savedAt` are
replaced, and metadata not re-supplied (email, account type) is preserved;
a fresh entry records the supplied metadata, with the account type
defaulting to oauth.  This helper performs the `findIndex` / replace-or-push
step on the account list; insertion-order position is preserved. -/
def saveAccountList (nowIso name credentials : String) (email accountType : Option String) :
    List SavedAccount → List SavedAccount
  | [] => [{ name := name, email := email,
             accountType := some ((accountType.getD "oauth")),
             credentials := credentials, savedAt := nowIso }]
  | a :: rest =>
    if a.name = name then
      { name := name, email := jsNullish email a.email,
        accountType := jsNullish accountType a.accountType,
        credentials := credentials, savedAt := nowIso } :: rest
    else a :: saveAccountList nowIso name credentials email accountType rest

/-- Modelled from the spec: `AccountStore.saveAccount` as a pure state
transformer on the loaded `AccountsData` (the read-modify-write cycle with
encryption and file I/O abstracted away).  See `saveAccountList`. -/
def AccountStore.saveAccount (nowIso : String) (data : AccountsData)
    (name credentials : String) (email accountType : Option String) : AccountsData :=
  { data with accounts := saveAccountList nowIso name credentials email accountType data.accounts }

/-- Removes the first entry with the given name, mirroring
`findIndex` + `splice(index, 1)` in `deleteAccount`
(src/storage/index.ts lines 49-57); `none` when no entry matches
(`findIndex` returned -1). -/
def deleteFirstNamed (name : String) : List SavedAccount → Option (List SavedAccount)
  | [] => none
  | a :: rest =>
    if a.name = name then some rest
    else (deleteFirstNamed name rest).map (fun l => a :: l)

/-- Embedding of `AccountStore.deleteAccount` (src/storage/index.ts lines
49-57): returns `false` and leaves the state unchanged when the name is
absent; otherwise removes the entry and clears `activeAccountName` if it
pointed at the removed account. -/
def AccountStore.deleteAccount (data : AccountsData) (name : String) : Bool × AccountsData :=
  match deleteFirstNamed name data.accounts with
  | none => (false, data)
  | some accounts =>
    (true, { accounts := accounts,
             activeAccountName :=
               if data.activeAccountName = some name then none
               else data.activeAccountName })

/-- Embedding of `AccountStore.setActiveAccount` (src/storage/index.ts lines
59-63): sets the field unconditionally. -/
def AccountStore.setActiveAccount (data : AccountsData) (name : Option String) : AccountsData :=
  { data with activeAccountName := name }

/-- The data-model invariant of spec section 3: `activeAccountName`, if
non-null, references an existing account name. -/
def activeOk (data : AccountsData) : Bool :=
  match data.activeAccountName with
  | none => true
  | some x => data.accounts.any (fun a => a.name == x)

/-! ### TokenLifecycle.refreshToken (src/tokens/index.ts lines 33-62) -/

/-- The token-endpoint success body
(src/tokens/index.ts / src/auth/index.ts `TokenResponse`). -/
structure TokenData where
  access_token : String
  refresh_token : String
  expires_in : Int
deriving DecidableEq, Repr

/-- Outcome of one `fetch` call: the runtime either throws (network error)
or yields a response with `ok`, `status`, a body text, and a `json()`
outcome that may itself throw. -/
inductive FetchOutcome (α : Type) where
  | thrown (msg : String)
  | response (ok : Bool) (status : Nat) (body : String) (json : Except String α)

/-- Result record of `refreshToken` (src/tokens/index.ts `RefreshResult`). -/
structure RefreshResult where
  success : Bool
  newCredentials : Option String := none
  error : Option String := none
deriving DecidableEq, Repr

/-- The body of `refreshToken` before its surrounding try/catch, as an
`Except`: a thrown error carries its message and the number of network
calls already made.  `stringify` models `JSON.stringify`, `isoOf` models
`new Date(ms).toISOString()`, `nowMs` is `Date.now()`. -/
def refreshTokenBody (parse : String → ParseResult) (stringify : ClaudeCredentials → String)
    (isoOf : Int → String) (nowMs : Int) (fetchOutcome : FetchOutcome TokenData)
    (credentialsJson : String) : Except (String × Nat) (RefreshResult × Nat) :=
  match parse credentialsJson with
  | .thrown msg => .error (msg, 0)
  | .parsed creds =>
    if !strTruthy (creds.claudeAiOauth.bind (fun o => o.refreshToken)) then
      .ok ({ success := false, error := some "No refresh token" }, 0)
    else
      match fetchOutcome with
      | .thrown msg => .error (msg, 1)
      | .response ok status _body json =>
        if !ok then
          .ok ({ success := false, error := some ("HTTP " ++ toString status) }, 1)
        else
          match json with
          | .error msg => .error (msg, 1)
          | .ok data =>
            let expiresAt := isoOf (nowMs + data.expires_in * 1000)
            let newCredentials : ClaudeCredentials :=
              { claudeAiOauth := some
                  { accessToken := some data.access_token,
                    refreshToken := some data.refresh_token,
                    expiresAt := some expiresAt } }
            .ok ({ success := true, newCredentials := some (stringify newCredentials) }, 1)

/-- Embedding of `refreshToken` (src/tokens/index.ts lines 33-62): the
try/catch converts any thrown error into `{success:false, error:<message>}`.
The second component counts the network calls made. -/
def refreshToken (parse : String → ParseResult) (stringify : ClaudeCredentials → String)
    (isoOf : Int → String) (nowMs : Int) (fetchOutcome : FetchOutcome TokenData)
    (credentialsJson : String) : RefreshResult × Nat :=
  match refreshTokenBody parse stringify isoOf nowMs fetchOutcome credentialsJson with
  | .ok r => r
  | .error (msg, n) => ({ success := false, error := some msg }, n)

/-! ### CryptoBox (src/storage/crypto.ts) -/

/-- Embedding of `encrypt` (src/storage/crypto.ts lines 19-31).  The
AES-256-GCM primitive (`createCipheriv` / `update` / `final` / `getAuthTag`)
is the external parameter `aeadSeal`, mapping key, IV and plaintext bytes to
ciphertext and auth-tag bytes; `b64encode` models `Buffer.toString('base64')`;
`iv` is the freshly drawn `randomBytes(12)`.  The function's own work is the
envelope layout `iv ++ authTag ++ ciphertext`. -/
def CryptoBox.encrypt (aeadSeal : List Nat → List Nat → List Nat → List Nat × List Nat)
    (b64encode : List Nat → String) (key iv plaintext : List Nat) : String :=
  let sealed := aeadSeal key iv plaintext
  let encrypted := sealed.1
  let authTag := sealed.2
  b64encode (iv ++ authTag ++ encrypted)

/-- Embedding of `decrypt` (src/storage/crypto.ts lines 33-46).  `aeadOpen`
is the external AES-256-GCM open primitive (`createDecipheriv` /
`setAuthTag` / `update` / `final`), returning `none` when the tag check
throws; `b64decode` models `Buffer.from(s, 'base64')`.  The function's own
work is splitting the envelope at offsets 12 and 28. -/
def CryptoBox.decrypt (aeadOpen : List Nat → List Nat → List Nat → List Nat → Option (List Nat))
    (b64decode : String → List Nat) (key : List Nat) (ciphertext : String) : Option (List Nat) :=
  let combined := b64decode ciphertext
  let iv := combined.take 12
  let authTag := (combined.drop 12).take 16
  let encrypted := combined.drop 28
  aeadOpen key iv authTag encrypted

/-! ### ClientOrchestrator (src/client.ts, second revision in src/unnamed/part_003) -/

/-- A thrown JavaScript error value, distinguishing the repository's
`AuthenticationError` class (src/usage/index.ts, re-exported through
src/errors.ts lines 40-45) and `StorageError` from a plain `Error`. -/
inductive JsError where
  | error (msg : String)
  | authenticationError (status : Nat)
  | storageError (msg : String)
deriving DecidableEq, Repr

/-- The `.message` property of a thrown error.  `AuthenticationError` sets
its message to `Authentication failed (HTTP <status>)` in its constructor;
`StorageError` prefixes `Storage error: `. -/
def JsError.message : JsError → String
  | .error m => m
  | .authenticationError s => "Authentication failed (HTTP " ++ toString s ++ ")"
  | .storageError m => "Storage error: " ++ m

/-- The `err instanceof AuthenticationError` test of the catch block. -/
def JsError.isAuthenticationError : JsError → Bool
  | .authenticationError _ => true
  | _ => false

/-- A usage window of the raw usage API body (src/usage/index.ts
`RawUsageWindow`). -/
structure RawUsageWindow where
  utilization : Int
  resets_at : Option String := none
deriving DecidableEq, Repr

/-- The raw extra-usage object of the usage API body (src/usage/index.ts
`RawExtraUsage`). -/
structure RawExtraUsage where
  is_enabled : Bool
  monthly_limit : Option Int := none
  used_credits : Option Int := none
deriving DecidableEq, Repr

/-- The raw usage API response body (src/usage/index.ts `UsageResponse`). -/
structure UsageResponse where
  five_hour : RawUsageWindow
  seven_day : RawUsageWindow
  seven_day_opus : Option RawUsageWindow := none
  seven_day_sonnet : Option RawUsageWindow := none
  extra_usage : Option RawExtraUsage := none
deriving DecidableEq, Repr

/-- Opaque carrier for the admin messages-usage response body consumed by
`_fetchAdminAccountUsage`; its contents are external data the orchestrator
only passes through `transformMessagesUsage`. -/
structure MessagesBuckets where
  payload : Nat
deriving DecidableEq, Repr

/-- Opaque carrier for the admin cost-report response body. -/
structure CostBuckets where
  payload : Nat
deriving DecidableEq, Repr

/-- The per-account OAuth usage result (src/types.ts `OAuthAccountUsage`).
`usage` carries the raw response from which `transformUsageData` derives the
display fields on success (pure field renaming, elided here); `none` stands
for the `EMPTY_OAUTH_USAGE` zero record used on every error path. -/
structure OAuthAccountUsage where
  accountName : String
  email : Option String := none
  usage : Option UsageResponse := none
  error : Option String := none
deriving DecidableEq, Repr, Inhabited

/-- The per-account admin usage result (src/types.ts `AdminAccountUsage`),
with the transformed payload carried raw. -/
structure AdminAccountUsage where
  accountName : String
  messages : Option MessagesBuckets := none
  cost : Option CostBuckets := none
  error : Option String := none
deriving DecidableEq, Repr, Inhabited

/-- The discriminated per-account result union (src/types.ts `AccountUsage`). -/
inductive AccountUsage where
  | oauth (u : OAuthAccountUsage)
  | admin (u : AdminAccountUsage)
deriving DecidableEq, Repr, Inhabited

/-- The account name recorded on a per-account result. -/
def AccountUsage.accountName : AccountUsage → String
  | .oauth u => u.accountName
  | .admin u => u.accountName

/-- The error string recorded on a per-account result. -/
def AccountUsage.error : AccountUsage → Option String
  | .oauth u => u.error
  | .admin u => u.error

/-- A result is well-formed when it is a success carrying a usage payload or
a failure carrying an error string. -/
def AccountUsage.wellFormed : AccountUsage → Bool
  | .oauth u => u.error.isSome || u.usage.isSome
  | .admin u => u.error.isSome || u.messages.isSome

/-- The environment of one `_fetchOAuthAccountUsage` run: the outcomes its
awaited collaborator calls will produce, consumed in call order, together
with counters of the calls made.  `refreshResults` are the values returned
by `TokenLifecycle.refreshToken` (which never throws, see `refreshToken`),
`fetchResults` the outcomes of `fetchUsage` (which throws
`AuthenticationError(401)` on a 401), `saveResults` the outcomes of
`store.saveAccount` (which can throw a `StorageError`). -/
structure EnvState where
  refreshResults : List RefreshResult
  fetchResults : List (Except JsError UsageResponse)
  saveResults : List (Except JsError Unit)
  refreshCalls : Nat := 0
  fetchCalls : Nat := 0
  saveCalls : Nat := 0

/-- Consume the next `refreshToken` outcome. -/
def takeRefresh (s : EnvState) : RefreshResult × EnvState :=
  (s.refreshResults.headD { success := false, error := some "env exhausted" },
   { s with refreshResults := s.refreshResults.tail, refreshCalls := s.refreshCalls + 1 })

/-- Consume the next `fetchUsage` outcome. -/
def takeFetch (s : EnvState) : Except JsError UsageResponse × EnvState :=
  (s.fetchResults.headD (.error (.error "env exhausted")),
   { s with fetchResults := s.fetchResults.tail, fetchCalls := s.fetchCalls + 1 })

/-- Consume the next `store.saveAccount` outcome. -/
def takeSave (s : EnvState) : Except JsError Unit × EnvState :=
  (s.saveResults.headD (.ok ()),
   { s with saveResults := s.saveResults.tail, saveCalls := s.saveCalls + 1 })

/-- The `EMPTY_OAUTH_USAGE`-based error result of `_fetchOAuthAccountUsage`. -/
def emptyOAuthUsage (name : String) (email : Option String) (err : String) : OAuthAccountUsage :=
  { accountName := name, email := email, usage := none, error := some err }

/-- The `validation.minutesUntilExpiry !== null && validation.minutesUntilExpiry < 5`
test of the near-expiry branch (`NaN < 5` is false in JavaScript). -/
def minutesLtFive : JsNum → Bool
  | .null => false
  | .nan => false
  | .int n => n < 5

/-- The front half of the try-block of `_fetchOAuthAccountUsage`
(src/unnamed/part_003 lines 367-386): validate, then if expired
refresh-or-fail, else if under five minutes left best-effort refresh.
Yields an error thrown inside the block (a `StorageError` from
`store.saveAccount`), the early `Token expired — refresh failed` result, or
the (possibly refreshed) credentials string to continue with. -/
def fetchOAuthStageA (parse : String → ParseResult) (dateOf : String → JsDate) (now : Int)
    (name : String) (email : Option String) (credentialsJson : String)
    (env0 : EnvState) : Except JsError (OAuthAccountUsage ⊕ String) × EnvState :=
  let validation := validateToken parse dateOf now credentialsJson
  if validation.isExpired then
    let step := takeRefresh env0
    let refreshed := step.1
    if refreshed.success && strTruthy refreshed.newCredentials then
      let creds := refreshed.newCredentials.getD ""
      let saveStep := takeSave step.2
      match saveStep.1 with
      | .ok _ => (.ok (.inr creds), saveStep.2)
      | .error e => (.error e, saveStep.2)
    else
      (.ok (.inl (emptyOAuthUsage name email "Token expired — refresh failed")), step.2)
  else if minutesLtFive validation.minutesUntilExpiry then
    let step := takeRefresh env0
    let refreshed := step.1
    if refreshed.success && strTruthy refreshed.newCredentials then
      let creds := refreshed.newCredentials.getD ""
      let saveStep := takeSave step.2
      match saveStep.1 with
      | .ok _ => (.ok (.inr creds), saveStep.2)
      | .error e => (.error e, saveStep.2)
    else
      (.ok (.inr credentialsJson), step.2)
  else
    (.ok (.inr credentialsJson), env0)

/-- The try-block of `_fetchOAuthAccountUsage` (src/unnamed/part_003 lines
365-393): after `fetchOAuthStageA`, parse the (possibly refreshed) blob,
require an access token, and make the usage call.  A `.error` value is an
error thrown inside the block (from `store.saveAccount`, `JSON.parse` or
`fetchUsage`), to be handled by `fetchOAuthCatch`. -/
def fetchOAuthTry (parse : String → ParseResult) (dateOf : String → JsDate) (now : Int)
    (name : String) (email : Option String) (credentialsJson : String)
    (env0 : EnvState) : Except JsError OAuthAccountUsage × EnvState :=
  match fetchOAuthStageA parse dateOf now name email credentialsJson env0 with
  | (.error e, env) => (.error e, env)
  | (.ok (.inl res), env) => (.ok res, env)
  | (.ok (.inr creds), env) =>
    match parse creds with
    | .thrown msg => (.error (.error msg), env)
    | .parsed c =>
      let token := c.claudeAiOauth.bind (fun o => o.accessToken)
      if strTruthy token then
        let fetchStep := takeFetch env
        match fetchStep.1 with
        | .ok usage =>
          (.ok { accountName := name, email := email, usage := some usage, error := none },
           fetchStep.2)
        | .error e => (.error e, fetchStep.2)
      else
        (.ok (emptyOAuthUsage name email "No access token"), env)

/-- The catch-block of `_fetchOAuthAccountUsage` (src/unnamed/part_003 lines
394-412): on an `AuthenticationError`, refresh once from the original blob
and retry the usage call once, any inner failure falling through to the
`Authentication failed` result; any other error becomes the result's error
message. -/
def fetchOAuthCatch (parse : String → ParseResult) (name : String) (email : Option String)
    (err : JsError) (env : EnvState) : OAuthAccountUsage × EnvState :=
  if err.isAuthenticationError then
    let step := takeRefresh env
    let refreshed := step.1
    if refreshed.success && strTruthy refreshed.newCredentials then
      let newCreds := refreshed.newCredentials.getD ""
      let saveStep := takeSave step.2
      match saveStep.1 with
      | .error _ => (emptyOAuthUsage name email "Authentication failed", saveStep.2)
      | .ok _ =>
        match parse newCreds with
        | .thrown _ => (emptyOAuthUsage name email "Authentication failed", saveStep.2)
        | .parsed c =>
          let token := c.claudeAiOauth.bind (fun o => o.accessToken)
          if strTruthy token then
            let fetchStep := takeFetch saveStep.2
            match fetchStep.1 with
            | .ok usage =>
              ({ accountName := name, email := email, usage := some usage, error := none },
               fetchStep.2)
            | .error _ => (emptyOAuthUsage name email "Authentication failed", fetchStep.2)
          else
            (emptyOAuthUsage name email "Authentication failed", saveStep.2)
    else
      (emptyOAuthUsage name email "Authentication failed", step.2)
  else
    (emptyOAuthUsage name email err.message, env)

/-- Embedding of `_fetchOAuthAccountUsage` (src/unnamed/part_003 lines
364-413): the try-block with its catch translation.  Total: every thrown
error is converted into a per-account result. -/
def fetchOAuthAccountUsage (parse : String → ParseResult) (dateOf : String → JsDate) (now : Int)
    (name : String) (email : Option String) (credentialsJson : String)
    (env0 : EnvState) : OAuthAccountUsage × EnvState :=
  match fetchOAuthTry parse dateOf now name email credentialsJson env0 with
  | (.ok r, env) => (r, env)
  | (.error e, env) => fetchOAuthCatch parse name email e env

/-- Embedding of `_fetchAdminAccountUsage` (src/unnamed/part_003 lines
332-362): parse the admin key, fetch the messages usage and (best-effort,
`.catch(() => null)`) the cost report; any thrown error becomes the
result's error message. -/
def fetchAdminAccountUsage (parse : String → ParseResult) (name : String)
    (credentialsJson : String) (messagesOutcome : Except JsError MessagesBuckets)
    (costOutcome : Except JsError CostBuckets) : AdminAccountUsage :=
  match parse credentialsJson with
  | .thrown msg => { accountName := name, error := some msg }
  | .parsed _ =>
    match messagesOutcome with
    | .error e => { accountName := name, error := some e.message }
    | .ok buckets =>
      let cost := match costOutcome with
        | .ok c => some c
        | .error _ => none
      { accountName := name, messages := some buckets, cost := cost, error := none }

/-- The whole environment of one per-account fetch. -/
structure PerAccountEnv where
  parse : String → ParseResult
  dateOf : String → JsDate
  now : Int
  refreshResults : List RefreshResult
  fetchResults : List (Except JsError UsageResponse)
  saveResults : List (Except JsError Unit)
  messagesOutcome : Except JsError MessagesBuckets
  costOutcome : Except JsError CostBuckets

/-- Embedding of `_fetchAccountUsage` (src/unnamed/part_003 lines 323-330):
`account.accountType ?? 'oauth'`, admin accounts routed to the admin
fetcher, everything else to the OAuth fetcher. -/
def fetchAccountUsage (account : SavedAccount) (env : PerAccountEnv) : AccountUsage :=
  let accountType := account.accountType.getD "oauth"
  if accountType = "admin" then
    .admin (fetchAdminAccountUsage env.parse account.name account.credentials
              env.messagesOutcome env.costOutcome)
  else
    .oauth (fetchOAuthAccountUsage env.parse env.dateOf env.now account.name account.email
              account.credentials
              { refreshResults := env.refreshResults, fetchResults := env.fetchResults,
                saveResults := env.saveResults }).1

/-- Helper for `getAllAccountsUsage`: each stored account is fetched with
its own collaborator environment (the remote responses depend on the
account being queried); results are collected in input order, as
`Promise.all` preserves positions. -/
def getAllAccountsUsageAux (envs : Nat → PerAccountEnv) (i : Nat) :
    List SavedAccount → List AccountUsage
  | [] => []
  | a :: rest => fetchAccountUsage a (envs i) :: getAllAccountsUsageAux envs (i + 1) rest

/-- Embedding of `getAllAccountsUsage` (src/unnamed/part_003 lines 309-314):
a concurrent fan-out over every stored account, joined with `Promise.all`.
Each per-account fetch is total (its try/catch converts every thrown error
into a per-result error string), so the join never rejects. -/
def getAllAccountsUsage (data : AccountsData) (envs : Nat → PerAccountEnv) : List AccountUsage :=
  getAllAccountsUsageAux envs 0 data.accounts

/-! ### AuthorizationFlow (src/auth/index.ts `authorize`, lines 94-238)

The promise returned by `authorize` is settled by two callback-driven
triggers sharing one `settled` flag: the deadline timer (lines 105-112) and
the request handler of the local listener (lines 114-218).  The host runtime
is single-threaded-cooperative, so a run is a sequence of events processed
atomically by `flowStep`; the token-exchange `await` splits the success
handler into a later `exchangeDone` continuation event, whose body
(lines 163-217, with `createLongLivedToken` folded into its outcome) is the
pure function `exchangeBlock`. -/

/-- The long-lived API key returned by `createLongLivedToken`
(src/auth/index.ts lines 62-81); its failure is an error message. -/
structure LongLivedKey where
  token : String
  expiresAt : String
deriving DecidableEq, Repr

/-- The post-callback async block of `authorize` (src/auth/index.ts lines
163-217 up to the settlement): token exchange, then the best-effort upgrade
to a long-lived key with fallback unless `requireLongLived`.  Returns the
credentials to resolve with, or the error to reject with. -/
def exchangeBlock (nowMs : Int) (isoOf : Int → String) (requireLongLived : Bool)
    (tokenOutcome : FetchOutcome TokenData) (longLived : Except String LongLivedKey) :
    Except JsError ClaudeAiOauth :=
  match tokenOutcome with
  | .thrown msg => .error (.error msg)
  | .response ok status body json =>
    if !ok then
      .error (.error ("Token exchange failed: HTTP " ++ toString status ++ " — " ++ body))
    else
      match json with
      | .error msg => .error (.error msg)
      | .ok data =>
        let shortExpiry := isoOf (nowMs + data.expires_in * 1000)
        match longLived with
        | .ok k =>
          .ok { accessToken := some k.token, refreshToken := some data.refresh_token,
                expiresAt := some k.expiresAt }
        | .error msg =>
          if requireLongLived then
            .error (.error ("Failed to create long-lived token: " ++ msg))
          else
            .ok { accessToken := some data.access_token,
                  refreshToken := some data.refresh_token, expiresAt := some shortExpiry }

/-- The state of the JavaScript promise returned by `authorize`: `resolve`
and `reject` on an already-settled promise are no-ops, captured by
`settlePromise`. -/
inductive PromiseState where
  | pending
  | resolved (credentials : ClaudeAiOauth)
  | rejected (err : JsError)
deriving DecidableEq, Repr

/-- JavaScript promise settlement: only the first settlement takes effect. -/
def settlePromise (p : PromiseState) (next : PromiseState) : PromiseState :=
  match p with
  | .pending => next
  | _ => p

/-- The query parameters of one request to the local listener
(`url.searchParams.get` returns `null` for an absent parameter). -/
structure CallbackRequest where
  pathname : String
  code : Option String := none
  state : Option String := none
  error : Option String := none

/-- The mutable state of one `authorize` run: the `settled` flag, the
deadline timer (`timerCleared` once `clearTimeout` ran, `timerFired` once
its callback ran), the listener, the number of token exchanges in flight
and ever started, and the promise. -/
structure FlowState where
  settled : Bool := false
  timerCleared : Bool := false
  timerFired : Bool := false
  serverClosed : Bool := false
  pendingExchanges : Nat := 0
  exchangesStarted : Nat := 0
  promise : PromiseState := .pending
deriving DecidableEq, Repr

/-- The initial state after `authorize` binds the listener and arms the
timer. -/
def initFlow : FlowState := {}

/-- One event of a run: the deadline timer firing, a request reaching the
listener, or a started token exchange completing with the given outcome. -/
inductive FlowEvent where
  | timerFire
  | request (req : CallbackRequest)
  | exchangeDone (nowMs : Int) (isoOf : Int → String) (requireLongLived : Bool)
      (tokenOutcome : FetchOutcome TokenData) (longLived : Except String LongLivedKey)

/-- One atomic callback of `authorize` (src/auth/index.ts):
timer (lines 105-112), request handler (lines 114-158 and the exchange
launch), and the exchange continuation (lines 163-217).
`expectedState` is the random `state` token of the session. -/
def flowStep (expectedState : String) (s : FlowState) : FlowEvent → FlowState
  | .timerFire =>
    -- a cleared or already-fired timer never calls back
    if s.timerCleared || s.timerFired then s
    else
      let s1 := { s with timerFired := true }
      if s1.settled then s1
      else
        { s1 with
          settled := true,
          serverClosed := true,
          promise := settlePromise s1.promise
            (.rejected (.error "OAuth authorization timed out")) }
  | .request req =>
    if s.settled then s
    else if req.pathname ≠ "/callback" then s  -- 404, flow state untouched
    else if strTruthy req.error then
      { s with
        settled := true,
        timerCleared := true,
        serverClosed := true,
        promise := settlePromise s.promise
          (.rejected (.error ("OAuth error: " ++ req.error.getD ""))) }
    else if req.state ≠ some expectedState then
      { s with
        settled := true,
        timerCleared := true,
        serverClosed := true,
        promise := settlePromise s.promise (.rejected (.error "OAuth state mismatch")) }
    else if !strTruthy req.code then
      { s with
        settled := true,
        timerCleared := true,
        serverClosed := true,
        promise := settlePromise s.promise (.rejected (.error "OAuth callback missing code")) }
    else
      -- success page served synchronously; the exchange begins
      { s with
        pendingExchanges := s.pendingExchanges + 1,
        exchangesStarted := s.exchangesStarted + 1 }
  | .exchangeDone nowMs isoOf requireLongLived tokenOutcome longLived =>
    if s.pendingExchanges = 0 then s  -- no exchange in flight: nothing to complete
    else
      let s1 := { s with pendingExchanges := s.pendingExchanges - 1 }
      match exchangeBlock nowMs isoOf requireLongLived tokenOutcome longLived with
      | .ok creds =>
        { s1 with
          settled := true,
          timerCleared := true,
          serverClosed := true,
          promise := settlePromise s1.promise (.resolved creds) }
      | .error e =>
        { s1 with
          settled := true,
          timerCleared := true,
          serverClosed := true,
          promise := settlePromise s1.promise (.rejected e) }

/-- A whole `authorize` run over a sequence of events. -/
def runFlow (expectedState : String) (events : List FlowEvent) : FlowState :=
  events.foldl (flowStep expectedState) initFlow

/-! ## Theorems -/

/-! ### C6: validateToken behaviour -/

/-- C6 (amended): `validateToken` on a blob whose `expiresAt` parses to a
past instant returns `isExpired = true`, `isValid = false`; on a future
instant it returns `isValid = true`, `isExpired = false` and a
`minutesUntilExpiry ≥ 0` (zero when less than a full minute remains, which
is why the original `> 0` fails); on malformed JSON, a missing expiry field
or an empty expiry string it returns the all-null/false record and, being a
total function, never throws. -/
theorem validateToken_matches_spec (parse : String → ParseResult) (dateOf : String → JsDate)
    (now t : Int) (blob s msg : String) (c : ClaudeCredentials) :
    (parse blob = .parsed c → c.claudeAiOauth.bind (fun o => o.expiresAt) = some s →
      s ≠ "" → dateOf s = .time t → t ≤ now →
      validateToken parse dateOf now blob =
        { isValid := false, isExpired := true, expiresAt := some (.time t),
          minutesUntilExpiry := .int (Int.fdiv (t - now) 60000) }) ∧
    (parse blob = .parsed c → c.claudeAiOauth.bind (fun o => o.expiresAt) = some s →
      s ≠ "" → dateOf s = .time t → now < t →
      validateToken parse dateOf now blob =
        { isValid := true, isExpired := false, expiresAt := some (.time t),
          minutesUntilExpiry := .int (Int.fdiv (t - now) 60000) } ∧
      0 ≤ Int.fdiv (t - now) 60000) ∧
    (parse blob = .thrown msg → validateToken parse dateOf now blob = nullValidation) ∧
    (parse blob = .parsed c → c.claudeAiOauth.bind (fun o => o.expiresAt) = none →
      validateToken parse dateOf now blob = nullValidation) ∧
    (parse blob = .parsed c → c.claudeAiOauth.bind (fun o => o.expiresAt) = some "" →
      validateToken parse dateOf now blob = nullValidation) := by
  refine ⟨?_, ?_, ?_, ?_, ?_⟩
  · intro h1 h2 h3 h4 h5
    simp only [validateToken, h1, h2, h3, h4, if_neg h3]
    simp [jsDateLe, minutesUntil, h5]
  · intro h1 h2 h3 h4 h5
    constructor
    · simp only [validateToken, h1, h2, h3, h4, if_neg h3]
      simp [jsDateLe, minutesUntil, not_le.mpr h5]
    · exact Int.fdiv_nonneg (by omega) (by norm_num)
  · intro h1
    simp [validateToken, h1]
  · intro h1 h2
    simp [validateToken, h1, h2]
  · intro h1 h2
    simp [validateToken, h1, h2]

/-- Concrete parse oracle for the C6 witness and counterexample: every blob
parses to credentials expiring at the string-named instant. -/
def c6Parse (expiry : String) : String → ParseResult := fun _ =>
  .parsed { claudeAiOauth := some { expiresAt := some expiry } }

/-- Concrete date oracle for the C6 witness and counterexample. -/
def c6Date (t : Int) : String → JsDate := fun _ => .time t

/-- C6 witness: the theorem applied at concrete inputs, discharging every
hypothesis: a past expiry (t = 0 ≤ now = 120000), a future expiry, a
malformed blob, and a missing expiry field. -/
theorem validateToken_matches_spec_witness :
    (validateToken (c6Parse "past") (c6Date 0) 120000 "blob" =
      { isValid := false, isExpired := true, expiresAt := some (.time 0),
        minutesUntilExpiry := .int (-2) }) ∧
    (validateToken (c6Parse "future") (c6Date 180000) 0 "blob" =
      { isValid := true, isExpired := false, expiresAt := some (.time 180000),
        minutesUntilExpiry := .int 3 }) ∧
    (validateToken (fun _ => .thrown "Unexpected token") (c6Date 0) 0 "not json" =
      nullValidation) ∧
    (validateToken (fun _ => .parsed {}) (c6Date 0) 0 "blob" = nullValidation) := by
  refine ⟨?_, ?_, ?_, ?_⟩
  · have h := (validateToken_matches_spec (c6Parse "past") (c6Date 0) 120000 0 "blob"
      "past" "m" { claudeAiOauth := some { expiresAt := some "past" } }).1
      rfl rfl (by decide) rfl (by decide)
    simpa using h
  · have h := ((validateToken_matches_spec (c6Parse "future") (c6Date 180000) 0 180000 "blob"
      "future" "m" { claudeAiOauth := some { expiresAt := some "future" } }).2.1
      rfl rfl (by decide) rfl (by decide)).1
    simpa using h
  · exact (validateToken_matches_spec (fun _ => .thrown "Unexpected token") (c6Date 0) 0 0
      "not json" "s" "Unexpected token" {}).2.2.1 rfl
  · exact (validateToken_matches_spec (fun _ => .parsed {}) (c6Date 0) 0 0 "blob" "s" "m"
      {}).2.2.2.1 rfl rfl

/-- C6 counterexample: a blob expiring one millisecond in the future (now =
0, expiry instant 1) is valid and not expired, yet `minutesUntilExpiry` is
`Math.floor(1 / 60000) = 0`, refuting the claim's `minutesUntilExpiry > 0`
for every future expiry. -/
theorem validateToken_future_minutes_not_positive :
    ((0 : Int) < 1) ∧
    validateToken (c6Parse "soon") (c6Date 1) 0 "blob" =
      { isValid := true, isExpired := false, expiresAt := some (.time 1),
        minutesUntilExpiry := .int 0 } := by
  constructor
  · decide
  · rfl

/-! ### C4 / C5: AccountStore -/

/-- Replacing the first entry named `name` rewrites exactly that position,
merging unsupplied metadata from the old entry. -/
theorem saveAccountList_replace (nowIso name creds : String) (email ty : Option String)
    (pre post : List SavedAccount) (old : SavedAccount) (hname : old.name = name)
    (hpre : ∀ a ∈ pre, a.name ≠ name) :
    saveAccountList nowIso name creds email ty (pre ++ old :: post) =
      pre ++ { name := name, email := jsNullish email old.email,
               accountType := jsNullish ty old.accountType,
               credentials := creds, savedAt := nowIso } :: post := by
  induction pre with
  | nil => simp [saveAccountList, hname]
  | cons a rest ih =>
    have ha : a.name ≠ name := hpre a (by simp)
    simp only [List.cons_append, saveAccountList, if_neg ha]
    exact congrArg (fun l => a :: l) (ih (fun b hb => hpre b (List.mem_cons_of_mem a hb)))

/-- C4: `saveAccount` upserts by name.  When an entry with the name already
exists (first occurrence `old` at an arbitrary position), saving replaces
that entry in place: the prefix and suffix are untouched, the entry keeps
its position and name, holds the latest blob and a fresh `savedAt`, and
metadata not re-supplied (here: no email, no account type passed, as in a
credentials-only refresh) is preserved from the old entry.  When the store
held exactly one entry for the name, the final state still holds exactly
one. -/
theorem saveAccount_upserts (nowIso creds : String) (pre post : List SavedAccount)
    (old : SavedAccount) (active : Option String)
    (hpre : ∀ a ∈ pre, a.name ≠ old.name) :
    AccountStore.saveAccount nowIso { accounts := pre ++ old :: post, activeAccountName := active }
        old.name creds none none =
      { accounts := pre ++ { name := old.name, email := old.email,
                             accountType := old.accountType,
                             credentials := creds, savedAt := nowIso } :: post,
        activeAccountName := active } ∧
    ((∀ a ∈ post, a.name ≠ old.name) →
      ((AccountStore.saveAccount nowIso
          { accounts := pre ++ old :: post, activeAccountName := active }
          old.name creds none none).accounts.countP (fun a => a.name == old.name)) = 1) := by
  have hrepl := saveAccountList_replace nowIso old.name creds none none pre post old rfl hpre
  constructor
  · simp only [AccountStore.saveAccount, hrepl, jsNullish]
  · intro hpost
    simp only [AccountStore.saveAccount, hrepl, jsNullish]
    rw [List.countP_append, List.countP_cons]
    have h1 : pre.countP (fun a => a.name == old.name) = 0 := by
      rw [List.countP_eq_zero]
      intro a ha
      simpa using hpre a ha
    have h2 : post.countP (fun a => a.name == old.name) = 0 := by
      rw [List.countP_eq_zero]
      intro a ha
      simpa using hpost a ha
    simp [h1, h2]

/-- C4 witness: the theorem applied to a two-account store where `Work` was
saved with an email and is refreshed credentials-only: the blob is replaced
in place, the email survives. -/
theorem saveAccount_upserts_witness :
    AccountStore.saveAccount "t2"
        { accounts := [{ name := "Other", credentials := "c0", savedAt := "t0" },
                       { name := "Work", email := some "work@example.com",
                         accountType := some "oauth", credentials := "creds-v1",
                         savedAt := "t1" }],
          activeAccountName := some "Work" }
        "Work" "creds-v2" none none =
      { accounts := [{ name := "Other", credentials := "c0", savedAt := "t0" },
                     { name := "Work", email := some "work@example.com",
                       accountType := some "oauth", credentials := "creds-v2",
                       savedAt := "t2" }],
        activeAccountName := some "Work" } := by
  have h := (saveAccount_upserts "t2" "creds-v2"
      [{ name := "Other", credentials := "c0", savedAt := "t0" }] []
      { name := "Work", email := some "work@example.com", accountType := some "oauth",
        credentials := "creds-v1", savedAt := "t1" }
      (some "Work") (by decide)).1
  simpa using h

/-- Upserting never removes a name that was present. -/
theorem saveAccountList_any_name (nowIso name creds : String) (email ty : Option String)
    (x : String) (l : List SavedAccount) (h : l.any (fun a => a.name == x) = true) :
    (saveAccountList nowIso name creds email ty l).any (fun a => a.name == x) = true := by
  induction l with
  | nil => simp at h
  | cons a rest ih =>
    by_cases hname : a.name = name
    · simp only [saveAccountList, if_pos hname, List.any_cons] at h ⊢
      simp only [Bool.or_eq_true] at h ⊢
      rcases h with h | h
      · left
        rw [← hname]
        exact h
      · right
        exact h
    · simp only [saveAccountList, if_neg hname, List.any_cons] at h ⊢
      simp only [Bool.or_eq_true] at h ⊢
      rcases h with h | h
      · left
        exact h
      · right
        exact ih h

/-- Deleting one name keeps every other name that was present. -/
theorem deleteFirstNamed_any (name x : String) (hx : x ≠ name) (l l' : List SavedAccount)
    (hdel : deleteFirstNamed name l = some l')
    (h : l.any (fun a => a.name == x) = true) :
    l'.any (fun a => a.name == x) = true := by
  induction l generalizing l' with
  | nil => simp [deleteFirstNamed] at hdel
  | cons a rest ih =>
    by_cases hname : a.name = name
    · simp only [deleteFirstNamed, if_pos hname, Option.some.injEq] at hdel
      subst hdel
      simp only [List.any_cons, Bool.or_eq_true] at h
      rcases h with h | h
      · exact absurd ((beq_iff_eq.mp h).symm.trans hname) hx
      · exact h
    · simp only [deleteFirstNamed, if_neg hname] at hdel
      cases hrec : deleteFirstNamed name rest with
      | none =>
        simp [hrec] at hdel
      | some rest' =>
        rw [hrec] at hdel
        simp only [Option.map_some', Option.some.injEq] at hdel
        subst hdel
        simp only [List.any_cons, Bool.or_eq_true] at h ⊢
        rcases h with h | h
        · left
          exact h
        · right
          exact ih rest' hrec h

/-- C5 (amended): starting from a state whose `activeAccountName`, if
non-null, names an existing account, `saveAccount` and `deleteAccount`
preserve that invariant, and `deleteAccount` clears `activeAccountName`
whenever the deleted name was the active one; `setActiveAccount` preserves
the invariant exactly when the name passed is null or names an existing
account — called with a non-existent name it sets the field unconditionally
(the existence check lives in the orchestrator's `switchAccount`, not in
the store), which is the correction the counterexample forces. -/
theorem accountStore_preserves_active_invariant (d : AccountsData)
    (nowIso name creds : String) (email ty : Option String) (m : Option String)
    (h : activeOk d = true) :
    activeOk (AccountStore.saveAccount nowIso d name creds email ty) = true ∧
    activeOk (AccountStore.deleteAccount d name).2 = true ∧
    ((AccountStore.deleteAccount d name).1 = true → d.activeAccountName = some name →
      (AccountStore.deleteAccount d name).2.activeAccountName = none) ∧
    ((∀ x, m = some x → d.accounts.any (fun a => a.name == x) = true) →
      activeOk (AccountStore.setActiveAccount d m) = true) := by
  refine ⟨?_, ?_, ?_, ?_⟩
  · unfold AccountStore.saveAccount activeOk
    cases hact : d.activeAccountName with
    | none => simp
    | some x =>
      simp only
      apply saveAccountList_any_name
      unfold activeOk at h
      rw [hact] at h
      exact h
  · unfold AccountStore.deleteAccount
    cases hdel : deleteFirstNamed name d.accounts with
    | none => exact h
    | some l' =>
      simp only [activeOk]
      by_cases hsame : d.activeAccountName = some name
      · simp [hsame]
      · simp only [if_neg hsame]
        cases hact : d.activeAccountName with
        | none => simp
        | some x =>
          simp only
          have hx : x ≠ name := by
            intro hcontra
            exact hsame (by rw [hact, hcontra])
          apply deleteFirstNamed_any name x hx d.accounts l' hdel
          unfold activeOk at h
          rw [hact] at h
          exact h
  · intro hdel1 hact
    unfold AccountStore.deleteAccount at hdel1 ⊢
    cases hrec : deleteFirstNamed name d.accounts with
    | none =>
      rw [hrec] at hdel1
      simp at hdel1
    | some l' =>
      simp [hact]
  · intro hm
    unfold AccountStore.setActiveAccount activeOk
    cases m with
    | none => simp
    | some x =>
      simp only
      exact hm x rfl

/-- C5 witness: the theorem applied to a one-account store with that
account active: saving, deleting and switching all keep the invariant, and
deleting the active account clears the active name. -/
theorem accountStore_preserves_active_invariant_witness :
    activeOk (AccountStore.saveAccount "t1"
      { accounts := [{ name := "Work", credentials := "c", savedAt := "t0" }],
        activeAccountName := some "Work" } "Work" "c2" none none) = true ∧
    (AccountStore.deleteAccount
      { accounts := [{ name := "Work", credentials := "c", savedAt := "t0" }],
        activeAccountName := some "Work" } "Work").2.activeAccountName = none := by
  have h := accountStore_preserves_active_invariant
    { accounts := [{ name := "Work", credentials := "c", savedAt := "t0" }],
      activeAccountName := some "Work" }
    "t1" "Work" "c2" none none (some "Work") (by decide)
  exact ⟨h.1, h.2.2.1 (by decide) rfl⟩

/-- C5 counterexample: from the empty store (which satisfies the invariant),
`setActiveAccount "ghost"` — an `AccountStore` operation — produces a state
whose `activeAccountName` references no existing account, refuting the
claim that every `AccountStore` operation preserves the invariant. -/
theorem setActiveAccount_breaks_invariant :
    activeOk { accounts := [], activeAccountName := none } = true ∧
    activeOk (AccountStore.setActiveAccount
      { accounts := [], activeAccountName := none } (some "ghost")) = false := by
  exact ⟨rfl, rfl⟩

/-! ### C10: refreshToken totality -/

/-- C10: `refreshToken` is total and never throws: malformed JSON and any
exception during the refresh attempt (a network throw, a failing `json()`)
are converted into `{success := false, error := message}` results; a blob
whose refresh-token field is absent or empty short-circuits to
`No refresh token` with zero network calls; a non-2xx response reports
`HTTP <status>`; and no run ever makes more than one network call. -/
theorem refreshToken_total (parse : String → ParseResult) (stringify : ClaudeCredentials → String)
    (isoOf : Int → String) (nowMs : Int) (fetchOutcome : FetchOutcome TokenData)
    (blob msg : String) (c : ClaudeCredentials) :
    (parse blob = .thrown msg →
      refreshToken parse stringify isoOf nowMs fetchOutcome blob =
        ({ success := false, error := some msg }, 0)) ∧
    (parse blob = .parsed c →
      strTruthy (c.claudeAiOauth.bind (fun o => o.refreshToken)) = false →
      refreshToken parse stringify isoOf nowMs fetchOutcome blob =
        ({ success := false, error := some "No refresh token" }, 0)) ∧
    (parse blob = .parsed c →
      strTruthy (c.claudeAiOauth.bind (fun o => o.refreshToken)) = true →
      fetchOutcome = .thrown msg →
      refreshToken parse stringify isoOf nowMs fetchOutcome blob =
        ({ success := false, error := some msg }, 1)) ∧
    (∀ status body json, parse blob = .parsed c →
      strTruthy (c.claudeAiOauth.bind (fun o => o.refreshToken)) = true →
      fetchOutcome = .response false status body json →
      refreshToken parse stringify isoOf nowMs fetchOutcome blob =
        ({ success := false, error := some ("HTTP " ++ toString status) }, 1)) ∧
    (∀ status body, parse blob = .parsed c →
      strTruthy (c.claudeAiOauth.bind (fun o => o.refreshToken)) = true →
      fetchOutcome = .response true status body (.error msg) →
      refreshToken parse stringify isoOf nowMs fetchOutcome blob =
        ({ success := false, error := some msg }, 1)) ∧
    (refreshToken parse stringify isoOf nowMs fetchOutcome blob).2 ≤ 1 := by
  refine ⟨?_, ?_, ?_, ?_, ?_, ?_⟩
  · intro h1
    simp [refreshToken, refreshTokenBody, h1]
  · intro h1 h2
    simp [refreshToken, refreshTokenBody, h1, h2]
  · intro h1 h2 h3
    simp [refreshToken, refreshTokenBody, h1, h2, h3]
  · intro status body json h1 h2 h3
    simp [refreshToken, refreshTokenBody, h1, h2, h3]
  · intro status body h1 h2 h3
    simp [refreshToken, refreshTokenBody, h1, h2, h3]
  · rcases hp : parse blob with msg2 | c2
    · simp [refreshToken, refreshTokenBody, hp]
    · by_cases ht : strTruthy (c2.claudeAiOauth.bind (fun o => o.refreshToken)) = true
      · rcases fetchOutcome with msg2 | ⟨ok, status, body, json⟩
        · simp [refreshToken, refreshTokenBody, hp, ht]
        · rcases ok
          · simp [refreshToken, refreshTokenBody, hp, ht]
          · rcases json with msg2 | data <;>
              simp [refreshToken, refreshTokenBody, hp, ht]
      · simp [refreshToken, refreshTokenBody, hp, ht]

/-- C10 witness: the theorem applied at concrete inputs: a malformed blob,
a blob with an empty refresh token (no network call), and a network throw
on a refreshable blob (converted to a result). -/
theorem refreshToken_total_witness :
    (refreshToken (fun _ => .thrown "bad json") (fun _ => "s") (fun _ => "iso") 0
        (.thrown "net down") "oops" =
      ({ success := false, error := some "bad json" }, 0)) ∧
    (refreshToken (fun _ => .parsed { claudeAiOauth := some { refreshToken := some "" } })
        (fun _ => "s") (fun _ => "iso") 0 (.thrown "net down") "blob" =
      ({ success := false, error := some "No refresh token" }, 0)) ∧
    (refreshToken (fun _ => .parsed { claudeAiOauth := some { refreshToken := some "rt" } })
        (fun _ => "s") (fun _ => "iso") 0 (.thrown "net down") "blob" =
      ({ success := false, error := some "net down" }, 1)) := by
  refine ⟨?_, ?_, ?_⟩
  · exact (refreshToken_total (fun _ => .thrown "bad json") (fun _ => "s") (fun _ => "iso") 0
      (.thrown "net down") "oops" "bad json" {}).1 rfl
  · exact (refreshToken_total (fun _ => .parsed { claudeAiOauth := some { refreshToken := some "" } })
      (fun _ => "s") (fun _ => "iso") 0 (.thrown "net down") "blob" "m"
      { claudeAiOauth := some { refreshToken := some "" } }).2.1 rfl (by decide)
  · exact (refreshToken_total (fun _ => .parsed { claudeAiOauth := some { refreshToken := some "rt" } })
      (fun _ => "s") (fun _ => "iso") 0 (.thrown "net down") "blob" "net down"
      { claudeAiOauth := some { refreshToken := some "rt" } }).2.2.1 rfl (by decide) rfl

/-! ### C3 / C9: CryptoBox envelope -/

/-- C3: round-trip identity of the envelope.  Given the correctness of the
external primitives at the values used — the AES-256-GCM open inverts the
seal for this key/IV/plaintext, base64 decoding inverts encoding on this
envelope, the IV is the 12 bytes `randomBytes(12)` drew and the GCM auth
tag is 16 bytes — `decrypt (encrypt p) = p`: the envelope packing
`iv ++ tag ++ ciphertext` and the fixed-offset split at 12 and 28 are
mutually inverse. -/
theorem cryptoBox_roundtrip
    (aeadSeal : List Nat → List Nat → List Nat → List Nat × List Nat)
    (aeadOpen : List Nat → List Nat → List Nat → List Nat → Option (List Nat))
    (b64encode : List Nat → String) (b64decode : String → List Nat)
    (key iv p ct tag : List Nat)
    (hseal : aeadSeal key iv p = (ct, tag))
    (hiv : iv.length = 12) (htag : tag.length = 16)
    (hb64 : b64decode (b64encode (iv ++ tag ++ ct)) = iv ++ tag ++ ct)
    (hopen : aeadOpen key iv tag ct = some p) :
    CryptoBox.decrypt aeadOpen b64decode key (CryptoBox.encrypt aeadSeal b64encode key iv p) =
      some p := by
  unfold CryptoBox.encrypt CryptoBox.decrypt
  rw [hseal]
  simp only
  rw [hb64, List.append_assoc]
  have htake : (iv ++ (tag ++ ct)).take 12 = iv := List.take_left' hiv
  have hdrop12 : (iv ++ (tag ++ ct)).drop 12 = tag ++ ct := List.drop_left' hiv
  have hdrop28 : (iv ++ (tag ++ ct)).drop 28 = ct := by
    have h1 : ((iv ++ (tag ++ ct)).drop 12).drop 16 = (iv ++ (tag ++ ct)).drop 28 := by
      rw [List.drop_drop]
    rw [← h1, hdrop12, List.drop_left' htag]
  rw [htake, hdrop12, List.take_left' htag, hdrop28]
  exact hopen

/-- Concrete primitives for the C3 witness: the seal passes the plaintext
through and emits a constant 16-byte tag; base64 is modelled at the single
envelope value the witness uses. -/
def c3Env : List Nat := List.replicate 12 0 ++ List.replicate 16 7 ++ [1, 2, 3]

/-- C3 witness: the theorem applied at a concrete plaintext `[1, 2, 3]`
with a 12-byte IV, discharging every primitive-correctness hypothesis by
evaluation. -/
theorem cryptoBox_roundtrip_witness :
    CryptoBox.decrypt
        (fun _ _ tag ct => if tag = List.replicate 16 7 then some ct else none)
        (fun _ => c3Env) []
        (CryptoBox.encrypt (fun _ _ pt => (pt, List.replicate 16 7)) (fun _ => "ENV") []
          (List.replicate 12 0) [1, 2, 3]) = some [1, 2, 3] := by
  exact cryptoBox_roundtrip
    (fun _ _ pt => (pt, List.replicate 16 7))
    (fun _ _ tag ct => if tag = List.replicate 16 7 then some ct else none)
    (fun _ => "ENV") (fun _ => c3Env) [] (List.replicate 12 0) [1, 2, 3] [1, 2, 3]
    (List.replicate 16 7) rfl (by decide) (by decide) (by decide) (by decide)

/-- C9: nonce freshness separates envelopes.  Two encryptions of the same
plaintext under distinct freshly drawn 12-byte nonces yield different
envelopes, given that base64 decoding inverts encoding on the two envelopes
(so the encoding is injective there): the nonce is embedded as the first 12
bytes of the decoded envelope, so equal envelopes would force equal
nonces. -/
theorem encrypt_nonce_freshness
    (aeadSeal : List Nat → List Nat → List Nat → List Nat × List Nat)
    (b64encode : List Nat → String) (b64decode : String → List Nat)
    (key iv1 iv2 p ct1 tag1 ct2 tag2 : List Nat)
    (h1 : aeadSeal key iv1 p = (ct1, tag1)) (h2 : aeadSeal key iv2 p = (ct2, tag2))
    (hiv1 : iv1.length = 12) (hiv2 : iv2.length = 12) (hne : iv1 ≠ iv2)
    (hd1 : b64decode (b64encode (iv1 ++ tag1 ++ ct1)) = iv1 ++ tag1 ++ ct1)
    (hd2 : b64decode (b64encode (iv2 ++ tag2 ++ ct2)) = iv2 ++ tag2 ++ ct2) :
    CryptoBox.encrypt aeadSeal b64encode key iv1 p ≠
      CryptoBox.encrypt aeadSeal b64encode key iv2 p := by
  intro heq
  unfold CryptoBox.encrypt at heq
  rw [h1, h2] at heq
  simp only at heq
  have hlists : iv1 ++ tag1 ++ ct1 = iv2 ++ tag2 ++ ct2 := by
    have := congrArg b64decode heq
    rwa [hd1, hd2] at this
  have htake : (iv1 ++ tag1 ++ ct1).take 12 = (iv2 ++ tag2 ++ ct2).take 12 :=
    congrArg (fun l => l.take 12) hlists
  rw [List.append_assoc, List.append_assoc, List.take_left' hiv1, List.take_left' hiv2] at htake
  exact hne htake

/-- First eight bytes of the C9 witness envelopes, distinct at the head. -/
def c9EnvA : List Nat := List.replicate 12 0 ++ List.replicate 16 9 ++ [5]

/-- Second C9 witness envelope, with IV starting in 1. -/
def c9EnvB : List Nat := (1 :: List.replicate 11 0) ++ List.replicate 16 9 ++ [5]

/-- C9 witness: the theorem applied at concrete distinct 12-byte IVs with a
base64 model injective on the two envelopes. -/
theorem encrypt_nonce_freshness_witness :
    CryptoBox.encrypt (fun _ _ pt => (pt, List.replicate 16 9))
        (fun l => if l = c9EnvA then "A" else "B") [] (List.replicate 12 0) [5] ≠
      CryptoBox.encrypt (fun _ _ pt => (pt, List.replicate 16 9))
        (fun l => if l = c9EnvA then "A" else "B") [] (1 :: List.replicate 11 0) [5] := by
  exact encrypt_nonce_freshness
    (fun _ _ pt => (pt, List.replicate 16 9))
    (fun l => if l = c9EnvA then "A" else "B")
    (fun s => if s = "A" then c9EnvA else c9EnvB)
    [] (List.replicate 12 0) (1 :: List.replicate 11 0) [5] [5] (List.replicate 16 9) [5]
    (List.replicate 16 9) rfl rfl (by decide) (by decide) (by decide) (by decide) (by decide)

/-! ### C1: 401 refresh-and-retry -/

/-- C1: when the usage call inside `_fetchOAuthAccountUsage` throws an
`AuthenticationError` (the try-block ends in a 401-class error), the
orchestrator runs the catch-block: it performs exactly one `refreshToken`
call and at most one usage-call retry, and either the retry succeeds (an
error-free result with a usage payload, one extra usage call) or the
result carries the error string `Authentication failed` — the function
returns a result instead of throwing in every case. -/
theorem oauthUsage_401_retry (parse : String → ParseResult) (dateOf : String → JsDate)
    (now : Int) (name : String) (email : Option String) (credentialsJson : String)
    (env0 env1 : EnvState) (err : JsError)
    (hthrow : fetchOAuthTry parse dateOf now name email credentialsJson env0 = (.error err, env1))
    (hauth : err.isAuthenticationError = true) :
    fetchOAuthAccountUsage parse dateOf now name email credentialsJson env0 =
      fetchOAuthCatch parse name email err env1 ∧
    (fetchOAuthCatch parse name email err env1).2.refreshCalls = env1.refreshCalls + 1 ∧
    (fetchOAuthCatch parse name email err env1).2.fetchCalls ≤ env1.fetchCalls + 1 ∧
    ((fetchOAuthCatch parse name email err env1).1.error = some "Authentication failed" ∨
      ((fetchOAuthCatch parse name email err env1).1.error = none ∧
       ((fetchOAuthCatch parse name email err env1).1.usage).isSome = true ∧
       (fetchOAuthCatch parse name email err env1).2.fetchCalls = env1.fetchCalls + 1)) := by
  have hmain : fetchOAuthAccountUsage parse dateOf now name email credentialsJson env0 =
      fetchOAuthCatch parse name email err env1 := by
    unfold fetchOAuthAccountUsage
    rw [hthrow]
  refine ⟨hmain, ?_⟩
  unfold fetchOAuthCatch
  simp only [hauth, if_true, takeRefresh, takeSave, takeFetch]
  by_cases hr : ((env1.refreshResults.headD
      { success := false, error := some "env exhausted" }).success &&
      strTruthy (env1.refreshResults.headD
      { success := false, error := some "env exhausted" }).newCredentials) = true
  · simp only [hr, if_true]
    rcases hs : env1.saveResults.headD (Except.ok ()) with e | u
    · simp [emptyOAuthUsage]
    · simp only
      rcases hp : parse ((env1.refreshResults.headD
          { success := false, error := some "env exhausted" }).newCredentials.getD "") with
        m | c
      · simp [emptyOAuthUsage]
      · simp only
        by_cases htok : strTruthy (c.claudeAiOauth.bind (fun o => o.accessToken)) = true
        · simp only [htok, if_true]
          rcases hf : env1.fetchResults.headD (Except.error (.error "env exhausted")) with
            e2 | usage
          · simp [emptyOAuthUsage]
          · simp [emptyOAuthUsage]
        · simp only [htok]
          simp [emptyOAuthUsage]
  · simp only [hr]
    simp [emptyOAuthUsage]

/-- Concrete parse oracle for the C1 witness: the stored blob `good` and
the refreshed blob both carry an access and refresh token and a far-future
expiry. -/
def c1Parse : String → ParseResult := fun s =>
  if s = "good" then
    .parsed
      { claudeAiOauth := some
          { accessToken := some "tok", refreshToken := some "rt", expiresAt := some "far" } }
  else .thrown "bad json"

/-- Date oracle for the C1 witness: every expiry string parses to a
far-future instant. -/
def c1Date : String → JsDate := fun _ => .time 1000000

/-- Collaborator environment for the C1 witness: the usage call 401s and
the refresh attempt fails with an HTTP 400. -/
def c1Env : EnvState :=
  { refreshResults := [{ success := false, error := some "HTTP 400" }],
    fetchResults := [.error (.authenticationError 401)],
    saveResults := [] }

/-- The C1 environment after the try-block consumed the 401 usage call. -/
def c1Env1 : EnvState :=
  { refreshResults := [{ success := false, error := some "HTTP 400" }],
    fetchResults := [], saveResults := [], fetchCalls := 1 }

/-- C1 witness: the theorem applied to a concrete valid-token account whose
usage call 401s and whose refresh fails: exactly one refresh call is made,
no second usage call, and the result reports `Authentication failed`. -/
theorem oauthUsage_401_retry_witness :
    fetchOAuthAccountUsage c1Parse c1Date 0 "Work" none "good" c1Env =
      fetchOAuthCatch c1Parse "Work" none (.authenticationError 401) c1Env1 ∧
    (fetchOAuthCatch c1Parse "Work" none (.authenticationError 401) c1Env1).2.refreshCalls =
      c1Env1.refreshCalls + 1 ∧
    (fetchOAuthCatch c1Parse "Work" none (.authenticationError 401) c1Env1).2.fetchCalls ≤
      c1Env1.fetchCalls + 1 ∧
    ((fetchOAuthCatch c1Parse "Work" none (.authenticationError 401) c1Env1).1.error =
        some "Authentication failed" ∨
      ((fetchOAuthCatch c1Parse "Work" none (.authenticationError 401) c1Env1).1.error = none ∧
       ((fetchOAuthCatch c1Parse "Work" none (.authenticationError 401) c1Env1).1.usage).isSome =
         true ∧
       (fetchOAuthCatch c1Parse "Work" none (.authenticationError 401) c1Env1).2.fetchCalls =
         c1Env1.fetchCalls + 1)) := by
  exact oauthUsage_401_retry c1Parse c1Date 0 "Work" none "good" c1Env c1Env1
    (.authenticationError 401) rfl rfl

/-! ### C2: getAllAccountsUsage isolation -/

/-- Every result of the catch-block names the account and is either a
success with a usage payload or carries an error string. -/
theorem fetchOAuthCatch_shape (parse : String → ParseResult) (name : String)
    (email : Option String) (err : JsError) (env : EnvState) :
    ((fetchOAuthCatch parse name email err env).1).accountName = name ∧
    (((fetchOAuthCatch parse name email err env).1).error.isSome ||
     ((fetchOAuthCatch parse name email err env).1).usage.isSome) = true := by
  unfold fetchOAuthCatch
  dsimp only
  repeat' split
  all_goals simp [emptyOAuthUsage]

/-- The only early result of the refresh stage is the
`Token expired — refresh failed` record. -/
theorem fetchOAuthStageA_inl_shape (parse : String → ParseResult) (dateOf : String → JsDate)
    (now : Int) (name : String) (email : Option String) (credentialsJson : String)
    (env env2 : EnvState) (res : OAuthAccountUsage)
    (h : fetchOAuthStageA parse dateOf now name email credentialsJson env =
      (.ok (.inl res), env2)) :
    res = emptyOAuthUsage name email "Token expired — refresh failed" := by
  unfold fetchOAuthStageA at h
  dsimp only at h
  repeat' split at h
  all_goals simp_all

/-- Every normal (non-throwing) result of the try-block names the account
and is either a success with a usage payload or carries an error string. -/
theorem fetchOAuthTry_ok_shape (parse : String → ParseResult) (dateOf : String → JsDate)
    (now : Int) (name : String) (email : Option String) (credentialsJson : String)
    (env env2 : EnvState) (r : OAuthAccountUsage)
    (h : fetchOAuthTry parse dateOf now name email credentialsJson env = (.ok r, env2)) :
    r.accountName = name ∧ (r.error.isSome || r.usage.isSome) = true := by
  unfold fetchOAuthTry at h
  rcases hA : fetchOAuthStageA parse dateOf now name email credentialsJson env with ⟨resA, envA⟩
  rw [hA] at h
  rcases resA with e | s
  · simp at h
  · rcases s with res | creds
    · dsimp only at h
      simp only [Prod.mk.injEq, Except.ok.injEq] at h
      rcases h with ⟨h1, h2⟩
      subst h1
      have heq := fetchOAuthStageA_inl_shape parse dateOf now name email credentialsJson
        env envA res hA
      simp [heq, emptyOAuthUsage]
    · dsimp only at h
      repeat' split at h
      all_goals simp only [Prod.mk.injEq, Except.ok.injEq] at h
      all_goals
        first
        | exact absurd h.1 (by simp)
        | (obtain ⟨h1, h2⟩ := h
           subst h1
           simp [emptyOAuthUsage])

/-- Every per-account fetch names its account and returns a well-formed
result (success payload or error string); being a Lean function, it is
total — the catch translation in `fetchOAuthAccountUsage` and
`fetchAdminAccountUsage` means no per-account failure escapes as an
exception. -/
theorem fetchAccountUsage_shape (a : SavedAccount) (env : PerAccountEnv) :
    (fetchAccountUsage a env).accountName = a.name ∧
    (fetchAccountUsage a env).wellFormed = true := by
  unfold fetchAccountUsage
  dsimp only
  split
  · unfold fetchAdminAccountUsage
    dsimp only [AccountUsage.accountName, AccountUsage.wellFormed]
    repeat' split
    all_goals simp
  · unfold fetchOAuthAccountUsage
    dsimp only [AccountUsage.accountName, AccountUsage.wellFormed]
    rcases htry : fetchOAuthTry env.parse env.dateOf env.now a.name a.email a.credentials
        { refreshResults := env.refreshResults, fetchResults := env.fetchResults,
          saveResults := env.saveResults } with ⟨res, env2⟩
    rcases res with e | r
    · dsimp only
      simpa [AccountUsage.accountName, AccountUsage.wellFormed] using
        fetchOAuthCatch_shape env.parse a.name a.email e env2
    · dsimp only
      simpa [AccountUsage.accountName, AccountUsage.wellFormed] using
        fetchOAuthTry_ok_shape env.parse env.dateOf env.now a.name a.email
          a.credentials _ env2 r htry

/-- The fan-out returns one result per account. -/
theorem getAllAccountsUsageAux_length (envs : Nat → PerAccountEnv) (start : Nat)
    (l : List SavedAccount) : (getAllAccountsUsageAux envs start l).length = l.length := by
  induction l generalizing start with
  | nil => rfl
  | cons a rest ih => simp [getAllAccountsUsageAux, ih]

/-- The i-th result of the fan-out is exactly the i-th account's own fetch
under its own environment. -/
theorem getAllAccountsUsageAux_getD (envs : Nat → PerAccountEnv) (start i : Nat)
    (l : List SavedAccount) (h : i < l.length) :
    (getAllAccountsUsageAux envs start l).getD i default =
      fetchAccountUsage (l.getD i default) (envs (start + i)) := by
  induction l generalizing start i with
  | nil => simp at h
  | cons a rest ih =>
    cases i with
    | zero => simp [getAllAccountsUsageAux]
    | succ j =>
      have hj : j < rest.length := by simpa using h
      have := ih (start + 1) j hj
      simp only [getAllAccountsUsageAux, List.getD_cons_succ]
      rw [this]
      have harith : start + 1 + j = start + (j + 1) := by omega
      rw [harith]

/-- C2: `getAllAccountsUsage` returns exactly one result per stored
account; the i-th result names the i-th account and is a success payload or
a per-result error string; and it is computed solely from that account and
its own collaborator outcomes, so a failure in any other account's fetch
(a different environment at any other index) never alters it — and since
every per-account fetch is a total function (its catch converts every
thrown error into a result), no per-account failure escapes
`getAllAccountsUsage` as an exception. -/
theorem getAllAccountsUsage_isolates (data : AccountsData) (envs envs2 : Nat → PerAccountEnv)
    (i : Nat) (a : SavedAccount) (env : PerAccountEnv) (hi : i < data.accounts.length)
    (hagree : envs2 i = envs i) :
    (getAllAccountsUsage data envs).length = data.accounts.length ∧
    (getAllAccountsUsage data envs).getD i default =
      fetchAccountUsage (data.accounts.getD i default) (envs i) ∧
    (getAllAccountsUsage data envs2).getD i default =
      (getAllAccountsUsage data envs).getD i default ∧
    ((getAllAccountsUsage data envs).getD i default).accountName =
      (data.accounts.getD i default).name ∧
    ((getAllAccountsUsage data envs).getD i default).wellFormed = true ∧
    (fetchAccountUsage a env).accountName = a.name ∧
    (fetchAccountUsage a env).wellFormed = true := by
  have hlen := getAllAccountsUsageAux_length envs 0 data.accounts
  have hget := getAllAccountsUsageAux_getD envs 0 i data.accounts hi
  have hget2 := getAllAccountsUsageAux_getD envs2 0 i data.accounts hi
  rw [Nat.zero_add] at hget hget2
  have hshape := fetchAccountUsage_shape (data.accounts.getD i default) (envs i)
  refine ⟨hlen, hget, ?_, ?_, ?_, (fetchAccountUsage_shape a env).1,
    (fetchAccountUsage_shape a env).2⟩
  · rw [getAllAccountsUsage, getAllAccountsUsage, hget, hget2, hagree]
  · rw [getAllAccountsUsage, hget]
    exact hshape.1
  · rw [getAllAccountsUsage, hget]
    exact hshape.2

/-- Environment of the C2 witness account `A`: a valid token whose usage
call succeeds. -/
def c2EnvA : PerAccountEnv :=
  { parse := c1Parse, dateOf := c1Date, now := 0,
    refreshResults := [],
    fetchResults := [.ok { five_hour := { utilization := 10 }, seven_day := { utilization := 20 } }],
    saveResults := [],
    messagesOutcome := .error (.error "unused"), costOutcome := .error (.error "unused") }

/-- Environment of the C2 witness account `B`: the usage call 401s and the
refresh fails. -/
def c2EnvB : PerAccountEnv :=
  { parse := c1Parse, dateOf := c1Date, now := 0,
    refreshResults := [{ success := false, error := some "HTTP 400" }],
    fetchResults := [.error (.authenticationError 401)],
    saveResults := [],
    messagesOutcome := .error (.error "unused"), costOutcome := .error (.error "unused") }

/-- Per-index environments of the C2 witness. -/
def c2Envs : Nat → PerAccountEnv := fun i => if i = 0 then c2EnvA else c2EnvB

/-- The two-account store of the C2 witness. -/
def c2Data : AccountsData :=
  { accounts := [{ name := "A", credentials := "good", savedAt := "t" },
                 { name := "B", credentials := "good", savedAt := "t" }],
    activeAccountName := none }

/-- C2 witness: the theorem applied to a concrete store of two accounts,
`A` valid and `B` always-401 with failing refresh: two results come back,
the second names `B`, is well-formed, and equals `B`'s own isolated fetch;
evaluation confirms `A` succeeds while `B` carries an error. -/
theorem getAllAccountsUsage_isolates_witness :
    ((getAllAccountsUsage c2Data c2Envs).length = c2Data.accounts.length ∧
     (getAllAccountsUsage c2Data c2Envs).getD 1 default =
       fetchAccountUsage (c2Data.accounts.getD 1 default) (c2Envs 1) ∧
     ((getAllAccountsUsage c2Data c2Envs).getD 1 default).accountName =
       (c2Data.accounts.getD 1 default).name ∧
     ((getAllAccountsUsage c2Data c2Envs).getD 1 default).wellFormed = true) ∧
    ((getAllAccountsUsage c2Data c2Envs).getD 0 default).error = none ∧
    ((getAllAccountsUsage c2Data c2Envs).getD 1 default).error =
      some "Authentication failed" := by
  have h := getAllAccountsUsage_isolates c2Data c2Envs c2Envs 1
    { name := "B", credentials := "good", savedAt := "t" } c2EnvB (by decide) rfl
  exact ⟨⟨h.1, h.2.1, h.2.2.2.1, h.2.2.2.2.1⟩, by rfl, by rfl⟩

/-! ### C7 / C8: AuthorizationFlow settlement -/

/-- The settled flag tracks exactly whether the promise is settled. -/
def flowConsistent (s : FlowState) : Prop :=
  s.settled = true ↔ s.promise ≠ .pending

/-- An already-settled promise ignores further settlements. -/
theorem settlePromise_of_ne (p next : PromiseState) (h : p ≠ .pending) :
    settlePromise p next = p := by
  cases p with
  | pending => exact absurd rfl h
  | resolved c => rfl
  | rejected e => rfl

/-- Settling a promise with a non-pending value leaves it non-pending. -/
theorem settlePromise_ne_pending (p next : PromiseState) (h : next ≠ .pending) :
    settlePromise p next ≠ .pending := by
  cases p with
  | pending => exact h
  | resolved c => simp [settlePromise]
  | rejected e => simp [settlePromise]

/-- Every step of the flow preserves the settled-flag/promise consistency. -/
theorem flowStep_consistent (st : String) (s : FlowState) (e : FlowEvent)
    (h : flowConsistent s) : flowConsistent (flowStep st s e) := by
  unfold flowConsistent at h ⊢
  cases e with
  | timerFire =>
    unfold flowStep
    dsimp only
    split
    · exact h
    · split
      · exact h
      · constructor
        · intro _
          exact settlePromise_ne_pending _ _ (by simp)
        · intro _
          rfl
  | request req =>
    unfold flowStep
    dsimp only
    split
    · exact h
    · split
      · exact h
      · split
        · exact ⟨fun _ => settlePromise_ne_pending _ _ (by simp), fun _ => rfl⟩
        · split
          · exact ⟨fun _ => settlePromise_ne_pending _ _ (by simp), fun _ => rfl⟩
          · split
            · exact ⟨fun _ => settlePromise_ne_pending _ _ (by simp), fun _ => rfl⟩
            · exact h
  | exchangeDone nowMs isoOf rll tokenOutcome longLived =>
    unfold flowStep
    dsimp only
    split
    · exact h
    · split
      · exact ⟨fun _ => settlePromise_ne_pending _ _ (by simp), fun _ => rfl⟩
      · exact ⟨fun _ => settlePromise_ne_pending _ _ (by simp), fun _ => rfl⟩

/-- Once the promise is settled, no step changes it, and no new token
exchange is started. -/
theorem flowStep_frozen (st : String) (s : FlowState) (e : FlowEvent)
    (hc : flowConsistent s) (h : s.promise ≠ .pending) :
    (flowStep st s e).promise = s.promise ∧
    (flowStep st s e).exchangesStarted = s.exchangesStarted := by
  have hs : s.settled = true := hc.mpr h
  cases e with
  | timerFire =>
    unfold flowStep
    dsimp only
    split
    · exact ⟨rfl, rfl⟩
    · simp [hs]
  | request req =>
    unfold flowStep
    dsimp only
    simp [hs]
  | exchangeDone nowMs isoOf rll tokenOutcome longLived =>
    unfold flowStep
    dsimp only
    split
    · exact ⟨rfl, rfl⟩
    · split
      · exact ⟨settlePromise_of_ne _ _ h, rfl⟩
      · exact ⟨settlePromise_of_ne _ _ h, rfl⟩

/-- Consistency holds along every run. -/
theorem foldl_flow_consistent (st : String) (t : List FlowEvent) (s : FlowState)
    (h : flowConsistent s) : flowConsistent (List.foldl (flowStep st) s t) := by
  induction t generalizing s with
  | nil => exact h
  | cons e rest ih => exact ih (flowStep st s e) (flowStep_consistent st s e h)

/-- Every reachable state of a run is consistent. -/
theorem runFlow_consistent (st : String) (t : List FlowEvent) :
    flowConsistent (runFlow st t) := by
  apply foldl_flow_consistent
  unfold flowConsistent initFlow
  simp

/-- After settlement the promise and the exchange counter are frozen for the
rest of the run. -/
theorem foldl_flow_frozen (st : String) (t : List FlowEvent) (s : FlowState)
    (hc : flowConsistent s) (h : s.promise ≠ .pending) :
    (List.foldl (flowStep st) s t).promise = s.promise ∧
    (List.foldl (flowStep st) s t).exchangesStarted = s.exchangesStarted := by
  induction t generalizing s with
  | nil => exact ⟨rfl, rfl⟩
  | cons e rest ih =>
    have hstep := flowStep_frozen st s e hc h
    have hcons := flowStep_consistent st s e hc
    have hne : (flowStep st s e).promise ≠ .pending := by
      rw [hstep.1]
      exact h
    have := ih (flowStep st s e) hcons hne
    exact ⟨this.1.trans hstep.1, this.2.trans hstep.2⟩

/-- C8: the listener and the deadline timer are mutually exclusive terminal
triggers.  In every run: (1) once the promise is settled, no continuation
of the run changes it (the one-shot `settled` flag and JavaScript promise
semantics make settlement permanent and unique); (2) after settlement, a
request event leaves the state entirely unchanged; (3) after a callback
settles the flow it has cleared the timer, whose firing is then a no-op;
(4) an armed timer firing settles the promise; (5) a terminal callback
(error parameter, state mismatch or missing code) on an unsettled flow
settles the promise. -/
theorem authorize_settles_exactly_once (st : String) (t1 t2 : List FlowEvent)
    (req : CallbackRequest) :
    ((runFlow st t1).promise ≠ .pending →
      (runFlow st (t1 ++ t2)).promise = (runFlow st t1).promise) ∧
    ((runFlow st t1).settled = true →
      flowStep st (runFlow st t1) (.request req) = runFlow st t1) ∧
    ((runFlow st t1).timerCleared = true →
      flowStep st (runFlow st t1) .timerFire = runFlow st t1) ∧
    ((runFlow st t1).timerFired = false → (runFlow st t1).timerCleared = false →
      (flowStep st (runFlow st t1) .timerFire).promise ≠ .pending) ∧
    ((runFlow st t1).settled = false → req.pathname = "/callback" →
      (strTruthy req.error = true ∨ req.state ≠ some st ∨ strTruthy req.code = false) →
      (flowStep st (runFlow st t1) (.request req)).promise ≠ .pending) := by
  refine ⟨?_, ?_, ?_, ?_, ?_⟩
  · intro h
    rw [runFlow, List.foldl_append]
    exact (foldl_flow_frozen st t2 (runFlow st t1) (runFlow_consistent st t1) h).1
  · intro h
    unfold flowStep
    dsimp only
    simp [h]
  · intro h
    unfold flowStep
    dsimp only
    simp [h]
  · intro h1 h2
    unfold flowStep
    dsimp only
    rw [if_neg (by simp [h1, h2])]
    by_cases hset : (runFlow st t1).settled = true
    · rw [if_pos hset]
      exact (runFlow_consistent st t1).mp hset
    · rw [if_neg hset]
      exact settlePromise_ne_pending _ _ (by simp)
  · intro hs hpath hterm
    unfold flowStep
    dsimp only
    rw [if_neg (by simp [hs]), if_neg (by simp [hpath])]
    by_cases herr : strTruthy req.error = true
    · rw [if_pos herr]
      exact settlePromise_ne_pending _ _ (by simp)
    · rw [if_neg herr]
      by_cases hst2 : req.state ≠ some st
      · rw [if_pos hst2]
        exact settlePromise_ne_pending _ _ (by simp)
      · rw [if_neg hst2]
        have hcode : strTruthy req.code = false := by
          rcases hterm with he | hmm | hc
          · exact absurd he herr
          · exact absurd hmm hst2
          · exact hc
        rw [if_pos (by simp [hcode])]
        exact settlePromise_ne_pending _ _ (by simp)

/-- C8 witness: the theorem applied to a concrete run: after a timeout at
the start, a later valid callback request leaves the state unchanged, and
the promise keeps its timeout rejection across the rest of the run. -/
theorem authorize_settles_exactly_once_witness :
    ((runFlow "tok" [FlowEvent.timerFire]).promise ≠ .pending →
      (runFlow "tok" ([FlowEvent.timerFire] ++
          [FlowEvent.request { pathname := "/callback", code := some "c",
                               state := some "tok" }])).promise =
        (runFlow "tok" [FlowEvent.timerFire]).promise) ∧
    ((runFlow "tok" [FlowEvent.timerFire]).settled = true →
      flowStep "tok" (runFlow "tok" [FlowEvent.timerFire])
          (.request { pathname := "/callback", code := some "c", state := some "tok" }) =
        runFlow "tok" [FlowEvent.timerFire]) ∧
    (runFlow "tok" [FlowEvent.timerFire]).promise ≠ .pending ∧
    (runFlow "tok" [FlowEvent.timerFire]).settled = true := by
  have h := authorize_settles_exactly_once "tok" [FlowEvent.timerFire]
    [FlowEvent.request { pathname := "/callback", code := some "c", state := some "tok" }]
    { pathname := "/callback", code := some "c", state := some "tok" }
  exact ⟨fun hne => h.1 hne, fun hs => h.2.1 hs, by decide, by decide⟩

/-- Every error an `exchangeBlock` failure rejects with is a plain `Error`. -/
theorem exchangeBlock_error_generic (nowMs : Int) (isoOf : Int → String) (rll : Bool)
    (tokenOutcome : FetchOutcome TokenData) (longLived : Except String LongLivedKey)
    (e : JsError) (h : exchangeBlock nowMs isoOf rll tokenOutcome longLived = .error e) :
    e.isAuthenticationError = false := by
  unfold exchangeBlock at h
  repeat' split at h
  all_goals
    first
    | (simp only [Except.error.injEq] at h
       subst h
       rfl)
    | simp_all [JsError.isAuthenticationError]

/-- Every rejection the flow can reach carries a plain `Error`. -/
def promiseGeneric : PromiseState → Prop
  | .rejected e => e.isAuthenticationError = false
  | _ => True

/-- Each step preserves genericity of the rejection error. -/
theorem flowStep_generic (st : String) (s : FlowState) (e : FlowEvent)
    (h : promiseGeneric s.promise) : promiseGeneric (flowStep st s e).promise := by
  have hsettle : ∀ (x : JsError), x.isAuthenticationError = false →
      promiseGeneric (settlePromise s.promise (.rejected x)) := by
    intro x hx
    cases hp : s.promise with
    | pending => simpa [settlePromise, promiseGeneric] using hx
    | resolved c =>
      rw [hp] at h
      simpa [settlePromise] using h
    | rejected e2 =>
      rw [hp] at h
      simpa [settlePromise] using h
  have hres : ∀ (c : ClaudeAiOauth), promiseGeneric (settlePromise s.promise (.resolved c)) := by
    intro c
    cases hp : s.promise with
    | pending => simp [settlePromise, promiseGeneric]
    | resolved c2 =>
      rw [hp] at h
      simpa [settlePromise] using h
    | rejected e2 =>
      rw [hp] at h
      simpa [settlePromise] using h
  cases e with
  | timerFire =>
    unfold flowStep
    dsimp only
    split
    · exact h
    · split
      · exact h
      · exact hsettle _ rfl
  | request req =>
    unfold flowStep
    dsimp only
    split
    · exact h
    · split
      · exact h
      · split
        · exact hsettle _ rfl
        · split
          · exact hsettle _ rfl
          · split
            · exact hsettle _ rfl
            · exact h
  | exchangeDone nowMs isoOf rll tokenOutcome longLived =>
    unfold flowStep
    dsimp only
    split
    · exact h
    · split
      · exact hres _
      · rename_i s1 creds heq
        exact hsettle _ (exchangeBlock_error_generic nowMs isoOf rll tokenOutcome
          longLived _ heq)

/-- Genericity of rejection errors holds along every run. -/
theorem runFlow_generic (st : String) (t : List FlowEvent) :
    promiseGeneric (runFlow st t).promise := by
  have : ∀ s, promiseGeneric s.promise →
      promiseGeneric (List.foldl (flowStep st) s t).promise := by
    induction t with
    | nil => exact fun s h => h
    | cons e rest ih => exact fun s h => ih (flowStep st s e) (flowStep_generic st s e h)
  exact this initFlow (by simp [initFlow, promiseGeneric])

/-- C7 (amended): every settled failure of `authorize` — timeout, an OAuth
`error` callback parameter, state mismatch, missing code, token-exchange
HTTP failure — rejects with the single plain `Error` kind carrying a
message (never the repository's `AuthenticationError` class, which only the
usage endpoints throw), and none of these failures is retried internally:
once the promise is settled no further token exchange is ever started.  (A
listener bind error has no rejection path at all — `authorize` installs no
`error` handler on the server — so it is outside the settled failures.) -/
theorem authorize_failures_single_error_kind (st : String) (t t2 : List FlowEvent)
    (e : JsError) (req : CallbackRequest) (nowMs : Int) (isoOf : Int → String) (rll : Bool)
    (status : Nat) (body : String) (json : Except String TokenData)
    (ll : Except String LongLivedKey) :
    ((runFlow st t).promise = .rejected e → e.isAuthenticationError = false) ∧
    ((runFlow st t).promise ≠ .pending →
      (runFlow st (t ++ t2)).exchangesStarted = (runFlow st t).exchangesStarted) ∧
    ((flowStep st initFlow .timerFire).promise =
      .rejected (.error "OAuth authorization timed out")) ∧
    (req.pathname = "/callback" → strTruthy req.error = false → req.state ≠ some st →
      (flowStep st initFlow (.request req)).promise =
        .rejected (.error "OAuth state mismatch")) ∧
    (req.pathname = "/callback" → strTruthy req.error = false → req.state = some st →
      strTruthy req.code = false →
      (flowStep st initFlow (.request req)).promise =
        .rejected (.error "OAuth callback missing code")) ∧
    (exchangeBlock nowMs isoOf rll (.response false status body json) ll =
      .error (.error ("Token exchange failed: HTTP " ++ toString status ++ " — " ++ body))) := by
  refine ⟨?_, ?_, ?_, ?_, ?_, ?_⟩
  · intro h
    have := runFlow_generic st t
    rw [h] at this
    exact this
  · intro h
    rw [runFlow, List.foldl_append]
    exact (foldl_flow_frozen st t2 (runFlow st t) (runFlow_consistent st t) h).2
  · rfl
  · intro hpath herr hst
    unfold flowStep
    dsimp only
    simp only [initFlow]
    simp [hpath, herr, hst, settlePromise]
  · intro hpath herr hst hcode
    unfold flowStep
    dsimp only
    simp only [initFlow]
    simp [hpath, herr, hst, hcode, settlePromise]
  · unfold exchangeBlock
    simp

/-- C7 witness: the theorem applied at concrete inputs: a timed-out run
rejects with the generic timeout `Error`, and a concrete mismatched-state
callback rejects with the generic state-mismatch `Error`. -/
theorem authorize_failures_single_error_kind_witness :
    ((runFlow "tok" [FlowEvent.timerFire]).promise =
        .rejected (.error "OAuth authorization timed out") →
      JsError.isAuthenticationError (.error "OAuth authorization timed out") = false) ∧
    ((flowStep "tok" initFlow (.request { pathname := "/callback", code := some "c",
                                          state := some "bad" })).promise =
      .rejected (.error "OAuth state mismatch")) := by
  have h := authorize_failures_single_error_kind "tok" [FlowEvent.timerFire] []
    (.error "OAuth authorization timed out")
    { pathname := "/callback", code := some "c", state := some "bad" }
    0 (fun _ => "iso") false 500 "body" (.error "j") (.error "l")
  exact ⟨fun hr => h.1 hr, h.2.2.2.1 rfl (by decide) (by decide)⟩

/-- C7 counterexample: the timeout failure mode rejects with the plain
`Error` value `OAuth authorization timed out`, which is not an
`AuthenticationError` — refuting the claim that every `authorize` failure
rejects with the `AuthenticationError` kind. -/
theorem authorize_timeout_not_authentication_error :
    (runFlow "tok" [FlowEvent.timerFire]).promise =
      .rejected (.error "OAuth authorization timed out") ∧
    JsError.isAuthenticationError (.error "OAuth authorization timed out") = false := by
  exact ⟨rfl, rfl⟩

end ClaudeUsage
